import Mathlib

/-!
Verification development for the array-padding module `tappy_lib/pad/pad.py`.

The module pads an n-dimensional integer array along every axis according to a
selectable fill policy.  The development shallowly embeds:

* the pad-width / parameter specification values accepted by the module
  (`PWSpec`), together with the normalisation and validation performed by the
  private helper `__validate_tuple` (`validate_tuple`);
* the padding engine `__loop_across` (`loop_across`), acting on a functional
  model of dense n-dimensional arrays (`NTensor`);
* the eight edge-vector generators (`maximumT`, `minimumT`, `meanT`,
  `medianT`, `constantT`, `linear_rampT`, `reflectT`, `wrapT`), which rewrite
  one 1-D line of the enlarged array in place via `__create_vector`
  (`create_vector`);
* the eight public entry points (`Pad.maximum`, …, `Pad.wrap`).

Modelling conventions.  Arrays carry integer elements (the dtype used by every
example in the module's docstrings); numpy writes of float statistics into an
integer array truncate toward zero, which is modelled exactly with `Int.tdiv`
on the exact rational value of the statistic.  Python exceptions are modelled
with `Except`: `PadError.wrongNumber` is `PadWidthWrongNumberOfValues` (it
carries the rank and the offending specification, as the source does),
`PadError.negative` is `NegativePadWidth`, `PadError.indexError` is the
`IndexError` raised by evaluating `pad_width[0]` on an empty sequence at line
85/89/93, and `PadError.valueError` is the `ValueError` numpy raises when a
slice assignment cannot broadcast (wrong-length value).  Slice arithmetic on
lists mirrors Python slice clamping via truncating `Nat` subtraction /
`List.take` / `List.drop`.  The in-place mutation of `newmat` by
`np.apply_along_axis` is modelled functionally: each axis pass replaces every
1-D line along that axis by the generator's rewrite of it.
-/

namespace Pad

/-- A pad-width (or stat-length / constant-value / end-value) specification as
passed by the caller: either a flat sequence of numbers, for example `(2,)` or
`(2, 3)`, or a sequence of inner sequences, for example `((3, 2), (2, 3))`.
This mirrors the duck-typed shapes examined by `__validate_tuple`. -/
inductive PWSpec where
  | flat : List Int → PWSpec
  | nested : List (List Int) → PWSpec
deriving DecidableEq

/-- The exceptions the module can raise while validating parameters, plus the
`ValueError` numpy raises on a mismatched slice assignment.  `wrongNumber`
carries the rank and the offending specification, exactly as
`PadWidthWrongNumberOfValues(rk, pw)` does. -/
inductive PadError where
  | wrongNumber : Nat → PWSpec → PadError
  | negative : PadError
  | indexError : PadError
  | valueError : PadError
deriving DecidableEq

end Pad

deriving instance DecidableEq for Except

namespace Pad

/-- The per-element loop of `__validate_tuple` (lines 98-102) over a per-axis
list of inner sequences: an inner sequence of length other than 2 raises
`PadWidthWrongNumberOfValues(shapelen, pw)` (here `pw` is the caller's nested
specification, unchanged by the first branch), and a negative component raises
`NegativePadWidth`.  Checks run left to right; the first offence wins. -/
def checkPairs (rk : Nat) (orig : PWSpec) : List (List Int) → Except PadError (List (Int × Int))
  | [] => .ok []
  | i :: rest =>
    if i.length = 2 then
      if i.getD 0 0 < 0 ∨ i.getD 1 0 < 0 then .error .negative
      else (checkPairs rk orig rest).map fun ps => (i.getD 0 0, i.getD 1 0) :: ps
    else .error (.wrongNumber rk orig)

/-- The same per-element loop on a broadcast list of numeric pairs (the two
flat branches of `__validate_tuple` always produce pairs, so only the
negativity check can fire). -/
def checkPairsP : List (Int × Int) → Except PadError (List (Int × Int))
  | [] => .ok []
  | p :: rest =>
    if p.1 < 0 ∨ p.2 < 0 then .error .negative
    else (checkPairsP rest).map fun ps => p :: ps

/-- `__validate_tuple` (lines 77-103).  `shapelen` is the rank of the array.
A nested specification is used as-is when its length equals the rank; a flat
1-element specification broadcasts to `(v, v)` per axis; a flat 2-element
specification broadcasts the pair per axis; anything else raises
`PadWidthWrongNumberOfValues(shapelen, pad_width)`.  Evaluating
`pad_width[0]` on an empty sequence raises `IndexError` before any branch can
match.  After broadcasting, every entry is checked for length 2 and
non-negativity. -/
def validate_tuple (shapelen : Nat) (pad_width : PWSpec) : Except PadError (List (Int × Int)) :=
  match pad_width with
  | .nested l =>
    if l.isEmpty then .error .indexError
    else if l.length = shapelen then checkPairs shapelen pad_width l
    else .error (.wrongNumber shapelen pad_width)
  | .flat l =>
    if l.isEmpty then .error .indexError
    else if l.length = 1 then checkPairsP (List.replicate shapelen (l.getD 0 0, l.getD 0 0))
    else if l.length = 2 then checkPairsP (List.replicate shapelen (l.getD 0 0, l.getD 1 0))
    else .error (.wrongNumber shapelen pad_width)

/-- A validated specification has non-negative entries; this converts it to
the `Nat` pairs consumed by the engine. -/
def toNatPairs (pw : List (Int × Int)) : List (Nat × Nat) :=
  pw.map fun p => (p.1.toNat, p.2.toNat)

/-! ### Line-level pure functions: the edge-vector generators -/

/-- Overwrite `xs.length` positions of `v` starting at `start` with `xs`
(the list-functional form of a numpy basic-slice assignment of matching
length). -/
def writeSlice (v : List Int) (start : Nat) (xs : List Int) : List Int :=
  v.take start ++ (xs ++ v.drop (start + xs.length))

/-- `__create_vector` (lines 66-74): write `bval` into `vector[:pt.1]` and,
when `pt.2 > 0`, `aval` into `vector[-pt.2:]`.  This total model writes the
values it is given; the checked variant `create_vector_chk` below also models
numpy's broadcast error for wrong-length values. -/
def create_vector (v : List Int) (pt : Nat × Nat) (bval aval : List Int) : List Int :=
  let v1 := writeSlice v 0 bval
  if 0 < pt.2 then writeSlice v1 (v1.length - pt.2) aval else v1

/-- The interior span `vector[pt.1 : len - pt.2]` used by
`__create_stat_vectors` when `stat_len` is absent (with the `-pt.2 == 0 →
None` fix-up of lines 144-146 folded into the truncating arithmetic). -/
def statSlice (v : List Int) (pt : Nat × Nat) : List Int :=
  (v.drop pt.1).take (v.length - pt.2 - pt.1)

/-- `__create_stat_vectors` (lines 140-157).  Without `stat_len` both windows
are the whole interior span.  With `stat_len`, each side with positive pad
width takes the nearest `stat_len` interior elements (Python slice clamping
modelled by truncating subtraction and `take`/`drop`); a side with zero pad
width keeps the placeholder `np.arange(1) = [0]`. -/
def create_stat_vectors (v : List Int) (pt : Nat × Nat) (iaxis : Nat)
    (stat_len : Option (List (Nat × Nat))) : List Int × List Int :=
  match stat_len with
  | none => (statSlice v pt, statSlice v pt)
  | some sl =>
    let s := sl.getD iaxis (0, 0)
    let sbvec := if 0 < pt.1 then (v.drop pt.1).take s.1 else [0]
    let savec := if 0 < pt.2 then (v.take (v.length - pt.2)).drop (v.length - pt.2 - s.2) else [0]
    (sbvec, savec)

/-- Python `max` over a list of integers (meaningful on nonempty lists, which
is the only way the generators reach it on the inputs the claims cover). -/
def maxList (l : List Int) : Int := l.foldl max (l.headD 0)

/-- Python `min` over a list of integers. -/
def minList (l : List Int) : Int := l.foldl min (l.headD 0)

/-- Sum of a list of integers. -/
def sumInts (l : List Int) : Int := l.foldl (· + ·) 0

/-- The value an `np.average` of integers becomes after assignment into an
integer array: the exact mean truncated toward zero,
`trunc(sum / len) = sum.tdiv len`. -/
def meanInt (l : List Int) : Int := (sumInts l).tdiv (l.length : Int)

/-- Insert into a sorted list (helper for the sort behind `np.median`). -/
def insertSorted (x : Int) : List Int → List Int
  | [] => [x]
  | y :: ys => if x ≤ y then x :: y :: ys else y :: insertSorted x ys

/-- Sort a list of integers (the sort behind `np.median`). -/
def sortInts (l : List Int) : List Int := l.foldr insertSorted []

/-- The value an `np.median` of integers becomes after assignment into an
integer array: middle element for odd length, else the average of the two
middles truncated toward zero. -/
def medianInt (l : List Int) : Int :=
  let s := sortInts l
  if s.length % 2 = 1 then s.getD (s.length / 2) 0
  else (s.getD (s.length / 2 - 1) 0 + s.getD (s.length / 2) 0).tdiv 2

/-- The type of an edge-vector generator acting on one 1-D line: it receives
the `(before, after)` pad pair for the current axis, the axis index, and the
full line, and returns the line with its border regions overwritten. -/
abbrev LineFun := (Nat × Nat) → Nat → List Int → List Int

/-- `__maximum` (lines 160-168) as a line rewrite. -/
def maximumT (stat_len : Option (List (Nat × Nat))) : LineFun := fun pt ax v =>
  let sv := create_stat_vectors v pt ax stat_len
  create_vector v pt (List.replicate pt.1 (maxList sv.1)) (List.replicate pt.2 (maxList sv.2))

/-- `__minimum` (lines 171-179) as a line rewrite. -/
def minimumT (stat_len : Option (List (Nat × Nat))) : LineFun := fun pt ax v =>
  let sv := create_stat_vectors v pt ax stat_len
  create_vector v pt (List.replicate pt.1 (minList sv.1)) (List.replicate pt.2 (minList sv.2))

/-- `__mean` (lines 193-201) as a line rewrite on an integer array: the
`np.average` value is truncated toward zero when written back. -/
def meanT (stat_len : Option (List (Nat × Nat))) : LineFun := fun pt ax v =>
  let sv := create_stat_vectors v pt ax stat_len
  create_vector v pt (List.replicate pt.1 (meanInt sv.1)) (List.replicate pt.2 (meanInt sv.2))

/-- `__median` (lines 182-190) as a line rewrite on an integer array. -/
def medianT (stat_len : Option (List (Nat × Nat))) : LineFun := fun pt ax v =>
  let sv := create_stat_vectors v pt ax stat_len
  create_vector v pt (List.replicate pt.1 (medianInt sv.1)) (List.replicate pt.2 (medianInt sv.2))

/-- `__constant` (lines 204-211) as a line rewrite. -/
def constantT (constant_values : List (Int × Int)) : LineFun := fun pt ax v =>
  let c := constant_values.getD ax (0, 0)
  create_vector v pt (List.replicate pt.1 c.1) (List.replicate pt.2 c.2)

/-- The denominators of the two delta divisions of `__linear_ramp` (lines
219-222): `float(pad_tuple[0])` and `float(pad_tuple[1])`.  Both division
expressions are evaluated unconditionally on every call, with no guard on a
zero pad width. -/
def linear_ramp_denominators (pad_tuple : Nat × Nat) : List Int :=
  [(pad_tuple.1 : Int), (pad_tuple.2 : Int)]

/-- One ramp vector of `__linear_ramp`: position `i` holds
`end_value + i * delta` truncated toward zero on assignment into the integer
array, where `delta = num / w`; exactly, `trunc((e * w + i * num) / w)`. -/
def rampVec (e num : Int) (w : Nat) : List Int :=
  (List.range w).map fun (i : Nat) => (e * (w : Int) + (i : Int) * num).tdiv (w : Int)

/-- The part of `__linear_ramp` after the two delta computations, with the
delta numerators passed in: build the before ramp, build the after ramp and
reverse it, and write both borders. -/
def linear_ramp_core (e : Int × Int) (pt : Nat × Nat) (bnum anum : Int) (v : List Int) : List Int :=
  create_vector v pt (rampVec e.1 bnum pt.1) ((rampVec e.2 anum pt.2).reverse)

/-- `__linear_ramp` (lines 214-235) as a line rewrite: the before delta is
`(vector[pt.1] - e.1) / pt.1` and the after delta is
`(vector[-pt.2 - 1] - e.2) / pt.2`, both computed unconditionally. -/
def linear_rampT (end_value : List (Int × Int)) : LineFun := fun pt ax v =>
  let e := end_value.getD ax (0, 0)
  linear_ramp_core e pt (v.getD pt.1 0 - e.1) (v.getD (v.length - pt.2 - 1) 0 - e.2) v

/-- `__reflect` (lines 238-244) as a line rewrite:
before = reverse of `vector[pt.1 + 1 : 2*pt.1 + 1]`,
after = reverse of `vector[-2*pt.2 - 1 : -pt.2 - 1]`, with Python slice
clamping. -/
def reflectT : LineFun := fun pt _ v =>
  create_vector v pt
    (((v.drop (pt.1 + 1)).take pt.1).reverse)
    (((v.take (v.length - pt.2 - 1)).drop (v.length - 2 * pt.2 - 1)).reverse)

/-- `__wrap` (lines 247-253) as a line rewrite:
before = `vector[-(pt.2 + pt.1) : -pt.2]`, after = `vector[pt.1 : pt.1 + pt.2]`.
Note the stop index `-pt.2` of the before slice: when `pt.2 = 0` it is the
literal index 0, so the slice is empty regardless of `pt.1`. -/
def wrapT : LineFun := fun pt _ v =>
  let stop := if pt.2 = 0 then 0 else v.length - pt.2
  create_vector v pt ((v.take stop).drop (stop - pt.1)) ((v.drop pt.1).take pt.2)

/-! ### The n-dimensional engine -/

/-- A dense n-dimensional integer array: a shape and a map from index tuples
to values (meaningful on indices within the shape). -/
structure NTensor where
  shape : List Nat
  data : List Nat → Int

/-- The 1-D line of `t` along axis `ax` through the point `idx` (the other
coordinates of `idx` stay fixed; coordinate `ax` sweeps the axis). -/
def lineOf (t : NTensor) (ax : Nat) (idx : List Nat) : List Int :=
  (List.range (t.shape.getD ax 0)).map fun j => t.data (idx.set ax j)

/-- `np.apply_along_axis` with an in-place line rewrite: every 1-D line along
axis `ax` is replaced by `g` applied to it. -/
def applyAlongAxis (g : List Int → List Int) (ax : Nat) (t : NTensor) : NTensor :=
  ⟨t.shape, fun idx => (g (lineOf t ax idx)).getD (idx.getD ax 0) 0⟩

/-- Whether `idx` lies in the interior sub-region of the enlarged array, i.e.
within the offset slices `pw[k].1 ≤ idx[k] < pw[k].1 + shape[k]` on every
axis. -/
def inInterior (shape : List Nat) (pw : List (Nat × Nat)) (idx : List Nat) : Bool :=
  (List.range shape.length).all fun k =>
    decide ((pw.getD k (0, 0)).1 ≤ idx.getD k 0 ∧
            idx.getD k 0 < (pw.getD k (0, 0)).1 + shape.getD k 0)

/-- Lines 118-124 of `__loop_across`: the enlarged zero array of shape
`old_shape + before + after` per axis, with the original array copied into
the offset interior (`newmat[offset_slices] = nmatrix`). -/
def zeroPadded (t : NTensor) (pw : List (Nat × Nat)) : NTensor :=
  ⟨List.zipWith (fun s p => p.1 + s + p.2) t.shape pw,
   fun idx =>
     if inInterior t.shape pw idx then
       t.data (List.zipWith (fun i p => i - p.1) idx pw)
     else 0⟩

/-- `__loop_across` (lines 106-137) after validation: allocate the enlarged
array, place the original, then for each axis in rank order rewrite every 1-D
line along that axis with the generator bound to that axis's pad pair. -/
def loop_across (t : NTensor) (pw : List (Nat × Nat)) (f : LineFun) : NTensor :=
  (List.range t.shape.length).foldl
    (fun m ax => applyAlongAxis (f (pw.getD ax (0, 0)) ax) ax m)
    (zeroPadded t pw)

/-- The validation part of `__loop_across` (lines 112-116: `stat_len` is
validated first when present, then `pad_width`) followed by the engine. -/
def pad_nd (f : Option (List (Nat × Nat)) → LineFun) (stat_len : Option PWSpec)
    (matrix : NTensor) (pad_width : PWSpec) : Except PadError NTensor := do
  let sl ← match stat_len with
    | some s => (validate_tuple matrix.shape.length s).map fun l => some (toNatPairs l)
    | none => pure (none : Option (List (Nat × Nat)))
  let pw ← validate_tuple matrix.shape.length pad_width
  pure (loop_across matrix (toNatPairs pw) (f sl))

/-- Public `maximum` (line 304). -/
def maximum (matrix : NTensor) (pad_width : PWSpec) (stat_len : Option PWSpec) :
    Except PadError NTensor :=
  pad_nd maximumT stat_len matrix pad_width

/-- Public `minimum` (line 358). -/
def minimum (matrix : NTensor) (pad_width : PWSpec) (stat_len : Option PWSpec) :
    Except PadError NTensor :=
  pad_nd minimumT stat_len matrix pad_width

/-- Public `mean` (line 441). -/
def mean (matrix : NTensor) (pad_width : PWSpec) (stat_len : Option PWSpec) :
    Except PadError NTensor :=
  pad_nd meanT stat_len matrix pad_width

/-- Public `median` (line 401). -/
def median (matrix : NTensor) (pad_width : PWSpec) (stat_len : Option PWSpec) :
    Except PadError NTensor :=
  pad_nd medianT stat_len matrix pad_width

/-- Public `constant` (lines 482-486): `constant_values` is validated with
`__validate_tuple` before the engine runs. -/
def constant (matrix : NTensor) (pad_width : PWSpec) (constant_values : PWSpec) :
    Except PadError NTensor := do
  let cv ← validate_tuple matrix.shape.length constant_values
  pad_nd (fun _ => constantT cv) none matrix pad_width

/-- Public `linear_ramp` (lines 527-528): `end_value` is validated with
`__validate_tuple` before the engine runs. -/
def linear_ramp (matrix : NTensor) (pad_width : PWSpec) (end_value : PWSpec) :
    Except PadError NTensor := do
  let ev ← validate_tuple matrix.shape.length end_value
  pad_nd (fun _ => linear_rampT ev) none matrix pad_width

/-- Public `reflect` (line 566). -/
def reflect (matrix : NTensor) (pad_width : PWSpec) : Except PadError NTensor :=
  pad_nd (fun _ => reflectT) none matrix pad_width

/-- Public `wrap` (line 604). -/
def wrap (matrix : NTensor) (pad_width : PWSpec) : Except PadError NTensor :=
  pad_nd (fun _ => wrapT) none matrix pad_width

/-! ### A checked 1-D model of `wrap`, including numpy's broadcast check -/

/-- A numpy basic-slice assignment of `slen` positions starting at `start`:
accepts a value of exactly matching length, broadcasts a length-1 value, and
raises `ValueError` otherwise. -/
def setSliceChk (v : List Int) (start slen : Nat) (xs : List Int) : Except PadError (List Int) :=
  if xs.length = slen then .ok (v.take start ++ xs ++ v.drop (start + slen))
  else if xs.length = 1 then
    .ok (v.take start ++ List.replicate slen (xs.getD 0 0) ++ v.drop (start + slen))
  else .error .valueError

/-- `__create_vector` with numpy's broadcast check on both writes. -/
def create_vector_chk (v : List Int) (pt : Nat × Nat) (bval aval : List Int) :
    Except PadError (List Int) := do
  let v1 ← setSliceChk v 0 pt.1 bval
  if 0 < pt.2 then setSliceChk v1 (v1.length - pt.2) pt.2 aval else pure v1

/-- `__wrap` with the broadcast check: the slices are those of `wrapT`. -/
def wrap_line_chk (pt : Nat × Nat) (v : List Int) : Except PadError (List Int) :=
  let stop := if pt.2 = 0 then 0 else v.length - pt.2
  create_vector_chk v pt ((v.take stop).drop (stop - pt.1)) ((v.drop pt.1).take pt.2)

/-- The public `wrap` specialised to a 1-D array, with the broadcast check of
the slice assignments retained: validate the pad width, build the enlarged
zero line with the original placed at offset `before`, and rewrite it with
`__wrap`. -/
def wrap1 (a : List Int) (pad_width : PWSpec) : Except PadError (List Int) := do
  let pw ← validate_tuple 1 pad_width
  let pt := ((pw.getD 0 (0, 0)).1.toNat, (pw.getD 0 (0, 0)).2.toNat)
  wrap_line_chk pt (List.replicate pt.1 0 ++ a ++ List.replicate pt.2 0)

/-! ### Constructing and reading back small tensors -/

/-- A 1-D array as an `NTensor`. -/
def ofList1 (a : List Int) : NTensor :=
  ⟨[a.length], fun idx => a.getD (idx.getD 0 0) 0⟩

/-- A 2-D array as an `NTensor` (rows of equal length). -/
def ofList2 (m : List (List Int)) : NTensor :=
  ⟨[m.length, (m.getD 0 []).length],
   fun idx => (m.getD (idx.getD 0 0) []).getD (idx.getD 1 0) 0⟩

/-- Read a rank-1 `NTensor` back as a list. -/
def NTensor.toList1 (t : NTensor) : List Int :=
  (List.range (t.shape.getD 0 0)).map fun i => t.data [i]

/-- Read a rank-2 `NTensor` back as a list of rows. -/
def NTensor.toList2 (t : NTensor) : List (List Int) :=
  (List.range (t.shape.getD 0 0)).map fun i =>
    (List.range (t.shape.getD 1 0)).map fun j => t.data [i, j]

/-! ### Predicates used to state the claims -/

/-- A line rewrite is interior-safe when it never changes a position strictly
inside the borders: positions `pt.1 ≤ j < v.length - pt.2` keep their
value. -/
def InteriorSafe (f : LineFun) : Prop :=
  ∀ (pt : Nat × Nat) (ax : Nat) (v : List Int) (j : Nat),
    pt.1 ≤ j → j + pt.2 < v.length → (f pt ax v).getD j 0 = v.getD j 0

/-- Whether a specification's shape matches one of the three accepted
broadcast forms for rank `rk`: a per-axis list of pairs of length `rk`, a
1-element numeric sequence, or a 2-element numeric sequence. -/
def acceptedShape (rk : Nat) : PWSpec → Bool
  | .nested l => !l.isEmpty && l.length == rk && l.all (fun i => i.length == 2)
  | .flat l => l.length == 1 || l.length == 2

/-- The per-axis pair list a specification broadcasts to (meaningful when
`acceptedShape` holds). -/
def broadcastPairs (rk : Nat) : PWSpec → List (Int × Int)
  | .nested l => l.map fun i => (i.getD 0 0, i.getD 1 0)
  | .flat l =>
    if l.length = 1 then List.replicate rk (l.getD 0 0, l.getD 0 0)
    else List.replicate rk (l.getD 0 0, l.getD 1 0)

/-- Whether the broadcast pair list of a specification contains a negative
component on some axis or side. -/
def hasNegPair (rk : Nat) (spec : PWSpec) : Bool :=
  (broadcastPairs rk spec).any fun p => decide (p.1 < 0) || decide (p.2 < 0)

/-- A specification with at least one element (so that `pad_width[0]` does not
raise `IndexError`). -/
def specNonempty : PWSpec → Bool
  | .flat l => !l.isEmpty
  | .nested l => !l.isEmpty

/-- Whether every well-formed pair occurring before the first malformed (non
length-2) entry is non-negative, i.e. the left-to-right scan of
`__validate_tuple` reaches the malformed entry without first raising
`NegativePadWidth`. -/
def cleanUntilMalformed : List (List Int) → Bool
  | [] => true
  | i :: rest =>
    if i.length = 2 then
      if i.getD 0 0 < 0 ∨ i.getD 1 0 < 0 then false else cleanUntilMalformed rest
    else true

/-- The condition under which a shape-rejected specification reaches the
`PadWidthWrongNumberOfValues` branch rather than `NegativePadWidth`: only the
per-axis nested form with correct length scans pairs before reporting a
malformed entry. -/
def nestedCleanOK (rk : Nat) : PWSpec → Bool
  | .flat _ => true
  | .nested l => if l.length = rk then cleanUntilMalformed l else true

end Pad

namespace Pad

/-! ### List helper lemmas -/

theorem getD_drop (l : List Int) (k m : Nat) (d : Int) :
    (l.drop k).getD m d = l.getD (k + m) d := by
  simp [List.getD_eq_getElem?_getD, List.getElem?_drop]

theorem getD_take (l : List Int) (n j : Nat) (d : Int) (h : j < n) :
    (l.take n).getD j d = l.getD j d := by
  simp [List.getD_eq_getElem?_getD, List.getElem?_take, h]

theorem getD_replicate (n : Nat) (x : Int) (i : Nat) (d : Int) (h : i < n) :
    (List.replicate n x).getD i d = x := by
  simp [List.getD_eq_getElem?_getD, List.getElem?_replicate, h]

theorem getD_map_range (n j : Nat) (g : Nat → Int) (h : j < n) :
    ((List.range n).map g).getD j 0 = g j := by
  rw [List.getD_eq_getElem?_getD, List.getElem?_map, List.getElem?_range h]
  rfl

theorem map_range_getD : ∀ (l : List Int),
    (List.range l.length).map (fun i => l.getD i 0) = l := by
  intro l
  induction l with
  | nil => rfl
  | cons x xs ih =>
    rw [List.length_cons, List.range_succ_eq_map, List.map_cons, List.map_map]
    have h2 : (List.range xs.length).map ((fun i => (x :: xs).getD i 0) ∘ Nat.succ)
        = (List.range xs.length).map (fun i => xs.getD i 0) := by
      apply List.map_congr_left
      intro i _
      rfl
    rw [h2, ih]
    rfl

theorem map_range_getD_len (l : List Int) (n : Nat) (h : l.length = n) :
    (List.range n).map (fun i => l.getD i 0) = l := by
  subst h
  exact map_range_getD l

theorem set_getD_self : ∀ (l : List Nat) (n : Nat), l.set n (l.getD n 0) = l := by
  intro l
  induction l with
  | nil => intro n; simp
  | cons x xs ih =>
    intro n
    cases n with
    | zero => simp [List.getD]
    | succ m =>
      have h := ih m
      simp only [List.set, List.getD_cons_succ]
      rw [h]

theorem getD_zipWith {α β γ : Type} (f : α → β → γ) :
    ∀ (l₁ : List α) (l₂ : List β) (k : Nat) (d₁ : α) (d₂ : β) (d : γ),
      k < l₁.length → k < l₂.length →
      (List.zipWith f l₁ l₂).getD k d = f (l₁.getD k d₁) (l₂.getD k d₂) := by
  intro l₁
  induction l₁ with
  | nil => intro l₂ k d₁ d₂ d h₁ _; simp at h₁
  | cons x xs ih =>
    intro l₂ k d₁ d₂ d h₁ h₂
    cases l₂ with
    | nil => simp at h₂
    | cons y ys =>
      cases k with
      | zero => rfl
      | succ m =>
        simp only [List.zipWith, List.getD_cons_succ]
        exact ih ys m d₁ d₂ d (by simpa using h₁) (by simpa using h₂)

theorem zip_shift_unshift : ∀ (pw : List (Nat × Nat)) (idx : List Nat),
    idx.length = pw.length →
    List.zipWith (fun i p => i - p.1) (List.zipWith (fun p i => p.1 + i) pw idx) pw = idx := by
  intro pw
  induction pw with
  | nil =>
    intro idx h
    rw [List.length_nil, List.length_eq_zero] at h
    subst h
    rfl
  | cons p ps ih =>
    intro idx h
    cases idx with
    | nil => simp at h
    | cons i is =>
      simp only [List.zipWith]
      rw [ih is (by simpa using h)]
      congr 1
      omega

/-! ### Slice-write lemmas -/

theorem writeSlice_length (v xs : List Int) (s : Nat) (h : s + xs.length ≤ v.length) :
    (writeSlice v s xs).length = v.length := by
  simp only [writeSlice, List.length_append, List.length_take, List.length_drop]
  omega

theorem writeSlice_getD_lt (v xs : List Int) (s j : Nat) (d : Int)
    (hj : j < s) (hjv : j < v.length) :
    (writeSlice v s xs).getD j d = v.getD j d := by
  unfold writeSlice
  rw [List.getD_append _ _ _ _ (by simp only [List.length_take]; omega)]
  exact getD_take v s j d hj

theorem writeSlice_getD_ge (v xs : List Int) (s j : Nat) (d : Int)
    (hs : s ≤ v.length) (hj : s + xs.length ≤ j) :
    (writeSlice v s xs).getD j d = v.getD j d := by
  unfold writeSlice
  rw [List.getD_append_right _ _ _ _ (by simp only [List.length_take]; omega)]
  rw [List.getD_append_right _ _ _ _ (by simp only [List.length_take]; omega)]
  rw [getD_drop]
  congr 1
  simp only [List.length_take]
  omega

theorem create_vector_getD_interior (v bval aval : List Int) (pt : Nat × Nat) (j : Nat)
    (hb : bval.length ≤ pt.1) (ha : aval.length ≤ pt.2)
    (h1 : pt.1 ≤ j) (h2 : j + pt.2 < v.length) :
    (create_vector v pt bval aval).getD j 0 = v.getD j 0 := by
  unfold create_vector
  have hv1len : (writeSlice v 0 bval).length = v.length :=
    writeSlice_length v bval 0 (by omega)
  have hv1 : (writeSlice v 0 bval).getD j 0 = v.getD j 0 :=
    writeSlice_getD_ge v bval 0 j 0 (by omega) (by omega)
  by_cases hp : 0 < pt.2
  · rw [if_pos hp]
    rw [writeSlice_getD_lt _ _ _ _ _ (by rw [hv1len]; omega) (by rw [hv1len]; omega)]
    exact hv1
  · rw [if_neg hp]
    exact hv1

/-! ### Interior safety of the eight generators -/

theorem interiorSafe_maximumT (sl : Option (List (Nat × Nat))) : InteriorSafe (maximumT sl) := by
  intro pt ax v j h1 h2
  exact create_vector_getD_interior _ _ _ _ _ (by simp) (by simp) h1 h2

theorem interiorSafe_minimumT (sl : Option (List (Nat × Nat))) : InteriorSafe (minimumT sl) := by
  intro pt ax v j h1 h2
  exact create_vector_getD_interior _ _ _ _ _ (by simp) (by simp) h1 h2

theorem interiorSafe_meanT (sl : Option (List (Nat × Nat))) : InteriorSafe (meanT sl) := by
  intro pt ax v j h1 h2
  exact create_vector_getD_interior _ _ _ _ _ (by simp) (by simp) h1 h2

theorem interiorSafe_medianT (sl : Option (List (Nat × Nat))) : InteriorSafe (medianT sl) := by
  intro pt ax v j h1 h2
  exact create_vector_getD_interior _ _ _ _ _ (by simp) (by simp) h1 h2

theorem interiorSafe_constantT (cv : List (Int × Int)) : InteriorSafe (constantT cv) := by
  intro pt ax v j h1 h2
  exact create_vector_getD_interior _ _ _ _ _ (by simp) (by simp) h1 h2

theorem rampVec_length (e num : Int) (w : Nat) : (rampVec e num w).length = w := by
  rw [rampVec, List.length_map, List.length_range]

theorem interiorSafe_linear_rampT (ev : List (Int × Int)) : InteriorSafe (linear_rampT ev) := by
  intro pt ax v j h1 h2
  exact create_vector_getD_interior _ _ _ _ _ (rampVec_length _ _ _).le
    (by rw [List.length_reverse, rampVec_length]) h1 h2

theorem interiorSafe_reflectT : InteriorSafe reflectT := by
  intro pt ax v j h1 h2
  exact create_vector_getD_interior _ _ _ _ _
    (by simp only [List.length_reverse, List.length_take, List.length_drop]; omega)
    (by simp only [List.length_reverse, List.length_take, List.length_drop]; omega) h1 h2

theorem interiorSafe_wrapT : InteriorSafe wrapT := by
  intro pt ax v j h1 h2
  have hb : ∀ s : Nat, ((v.take s).drop (s - pt.1)).length ≤ pt.1 := by
    intro s
    simp only [List.length_drop, List.length_take]
    omega
  exact create_vector_getD_interior _ _ _ _ _ (hb _)
    (by simp only [List.length_take, List.length_drop]; omega) h1 h2

/-! ### Engine lemmas -/

theorem foldl_apply_shape (f : LineFun) (pw : List (Nat × Nat)) :
    ∀ (axs : List Nat) (m : NTensor),
      (axs.foldl (fun m ax => applyAlongAxis (f (pw.getD ax (0, 0)) ax) ax m) m).shape
        = m.shape := by
  intro axs
  induction axs with
  | nil => intro m; rfl
  | cons ax rest ih =>
    intro m
    rw [List.foldl_cons, ih]
    rfl

theorem zeroPadded_interior (t : NTensor) (pw : List (Nat × Nat))
    (hlen : pw.length = t.shape.length)
    (idx : List Nat) (h1 : idx.length = t.shape.length)
    (h2 : ∀ k, k < t.shape.length → idx.getD k 0 < t.shape.getD k 0) :
    (zeroPadded t pw).data (List.zipWith (fun p i => p.1 + i) pw idx) = t.data idx := by
  have hin : inInterior t.shape pw (List.zipWith (fun p i => p.1 + i) pw idx) = true := by
    unfold inInterior
    rw [List.all_eq_true]
    intro k hk
    rw [List.mem_range] at hk
    rw [decide_eq_true_eq]
    rw [getD_zipWith _ pw idx k (0, 0) 0 0 (by omega) (by omega)]
    have hb := h2 k hk
    exact ⟨by omega, by omega⟩
  show (if inInterior t.shape pw _ then _ else _) = _
  rw [if_pos hin, zip_shift_unshift pw idx (by omega)]

theorem interior_foldl (t : NTensor) (pw : List (Nat × Nat)) (f : LineFun)
    (hf : InteriorSafe f) (hlen : pw.length = t.shape.length) :
    ∀ (axs : List Nat), (∀ b, b ∈ axs → b < t.shape.length) →
    ∀ (m : NTensor),
      m.shape = List.zipWith (fun s p => p.1 + s + p.2) t.shape pw →
      (∀ idx : List Nat, idx.length = t.shape.length →
        (∀ k, k < t.shape.length → idx.getD k 0 < t.shape.getD k 0) →
        m.data (List.zipWith (fun p i => p.1 + i) pw idx) = t.data idx) →
      ∀ idx : List Nat, idx.length = t.shape.length →
        (∀ k, k < t.shape.length → idx.getD k 0 < t.shape.getD k 0) →
        (axs.foldl (fun m ax => applyAlongAxis (f (pw.getD ax (0, 0)) ax) ax m) m).data
          (List.zipWith (fun p i => p.1 + i) pw idx) = t.data idx := by
  intro axs
  induction axs with
  | nil =>
    intro _ m _ hm idx h1 h2
    exact hm idx h1 h2
  | cons ax rest ih =>
    intro hmem m hsh hm idx h1 h2
    rw [List.foldl_cons]
    apply ih (fun b hb => hmem b (List.mem_cons_of_mem ax hb))
      (applyAlongAxis (f (pw.getD ax (0, 0)) ax) ax m) hsh _ idx h1 h2
    intro idx' h1' h2'
    have hax : ax < t.shape.length := hmem ax (List.mem_cons_self ax rest)
    have hipax : (List.zipWith (fun p i => p.1 + i) pw idx').getD ax 0
        = (pw.getD ax (0, 0)).1 + idx'.getD ax 0 :=
      getD_zipWith _ pw idx' ax (0, 0) 0 0 (by omega) (by omega)
    have hLine : (lineOf m ax (List.zipWith (fun p i => p.1 + i) pw idx')).length
        = m.shape.getD ax 0 := by
      simp [lineOf]
    have hmsh : m.shape.getD ax 0
        = (pw.getD ax (0, 0)).1 + t.shape.getD ax 0 + (pw.getD ax (0, 0)).2 := by
      rw [hsh]
      rw [getD_zipWith _ t.shape pw ax 0 (0, 0) 0 (by omega) (by omega)]
    have hidxb := h2' ax hax
    show (f (pw.getD ax (0, 0)) ax
        (lineOf m ax (List.zipWith (fun p i => p.1 + i) pw idx'))).getD
        ((List.zipWith (fun p i => p.1 + i) pw idx').getD ax 0) 0 = t.data idx'
    rw [hf (pw.getD ax (0, 0)) ax _ _ (by omega) (by omega)]
    unfold lineOf
    rw [getD_map_range _ _ _ (by omega)]
    rw [set_getD_self]
    exact hm idx' h1' h2'

theorem loop_across_interior (t : NTensor) (pw : List (Nat × Nat)) (f : LineFun)
    (hf : InteriorSafe f) (hlen : pw.length = t.shape.length)
    (idx : List Nat) (h1 : idx.length = t.shape.length)
    (h2 : ∀ k, k < t.shape.length → idx.getD k 0 < t.shape.getD k 0) :
    (loop_across t pw f).data (List.zipWith (fun p i => p.1 + i) pw idx) = t.data idx := by
  unfold loop_across
  exact interior_foldl t pw f hf hlen (List.range t.shape.length)
    (fun b hb => List.mem_range.mp hb) (zeroPadded t pw) rfl
    (fun i a b => zeroPadded_interior t pw hlen i a b) idx h1 h2

end Pad

namespace Pad

/-! ### Claim theorems -/

/-- C1 (amended): for every array, every normalized per-axis pad-width list and
every generator, the engine's result — hence the array returned by any of the
eight public padding functions whenever the call returns one — has shape
`shape[i] + before[i] + after[i]` on every axis: the enlarged array is
allocated with exactly that shape and the per-line rewrites cannot change
it. -/
theorem C1_padded_shape (t : NTensor) (pw : List (Nat × Nat)) (f : LineFun) :
    (loop_across t pw f).shape = List.zipWith (fun s p => p.1 + s + p.2) t.shape pw := by
  unfold loop_across
  rw [foldl_apply_shape]
  rfl

/-- C1 counterexample: with the valid pad width `((1, 0),)`, the claim as
stated promises that `wrap([1, 2, 3], (1, 0))` returns an array of shape
`3 + 1 + 0 = 4`; instead the call raises `ValueError` (the empty before-slice
`vector[-1:0]` cannot broadcast into 1 border slot) and returns nothing. -/
theorem C1_wrap_returns_no_array :
    ¬ ∃ r : List Int, wrap1 [1, 2, 3] (.nested [[1, 0]]) = .ok r ∧ r.length = 4 := by
  rintro ⟨r, hr, -⟩
  rw [show wrap1 [1, 2, 3] (.nested [[1, 0]]) = .error .valueError from rfl] at hr
  exact Except.noConfusion hr

/-- C2 (amended): whenever a padding call returns an array, reading the result
at the per-axis offsets `before[i] + idx[i]` recovers the original array
exactly, for each of the eight generators: every generator overwrites only
border positions of a line, never the interior. -/
theorem C2_interior_roundtrip (t : NTensor) (pw : List (Nat × Nat))
    (sl : Option (List (Nat × Nat))) (cv ev : List (Int × Int))
    (hlen : pw.length = t.shape.length)
    (idx : List Nat) (h1 : idx.length = t.shape.length)
    (h2 : ∀ k, k < t.shape.length → idx.getD k 0 < t.shape.getD k 0) :
    (loop_across t pw (maximumT sl)).data (List.zipWith (fun p i => p.1 + i) pw idx)
      = t.data idx ∧
    (loop_across t pw (minimumT sl)).data (List.zipWith (fun p i => p.1 + i) pw idx)
      = t.data idx ∧
    (loop_across t pw (meanT sl)).data (List.zipWith (fun p i => p.1 + i) pw idx)
      = t.data idx ∧
    (loop_across t pw (medianT sl)).data (List.zipWith (fun p i => p.1 + i) pw idx)
      = t.data idx ∧
    (loop_across t pw (constantT cv)).data (List.zipWith (fun p i => p.1 + i) pw idx)
      = t.data idx ∧
    (loop_across t pw (linear_rampT ev)).data (List.zipWith (fun p i => p.1 + i) pw idx)
      = t.data idx ∧
    (loop_across t pw reflectT).data (List.zipWith (fun p i => p.1 + i) pw idx)
      = t.data idx ∧
    (loop_across t pw wrapT).data (List.zipWith (fun p i => p.1 + i) pw idx)
      = t.data idx :=
  ⟨loop_across_interior t pw _ (interiorSafe_maximumT sl) hlen idx h1 h2,
   loop_across_interior t pw _ (interiorSafe_minimumT sl) hlen idx h1 h2,
   loop_across_interior t pw _ (interiorSafe_meanT sl) hlen idx h1 h2,
   loop_across_interior t pw _ (interiorSafe_medianT sl) hlen idx h1 h2,
   loop_across_interior t pw _ (interiorSafe_constantT cv) hlen idx h1 h2,
   loop_across_interior t pw _ (interiorSafe_linear_rampT ev) hlen idx h1 h2,
   loop_across_interior t pw _ interiorSafe_reflectT hlen idx h1 h2,
   loop_across_interior t pw _ interiorSafe_wrapT hlen idx h1 h2⟩

/-- Witness for C2 at a concrete input: padding `[7, 9]` with `(1, 2)` by wrap
keeps the original value 7 at offset position 1. -/
theorem C2_interior_roundtrip_witness :
    (loop_across (ofList1 [7, 9]) [(1, 2)] wrapT).data
        (List.zipWith (fun p i => p.1 + i) [(1, 2)] [0]) = (ofList1 [7, 9]).data [0] :=
  (C2_interior_roundtrip (ofList1 [7, 9]) [(1, 2)] none [] [] rfl [0] rfl
    (by decide)).2.2.2.2.2.2.2

/-- C2 counterexample: with the valid pad width `((2, 0),)` the claim promises
that slicing `wrap([1, 2, 3, 4], (2, 0))` back by the offsets recovers
`[1, 2, 3, 4]`; instead the call raises `ValueError` and there is no result to
slice. -/
theorem C2_wrap_roundtrip_fails :
    ¬ ∃ r : List Int, wrap1 [1, 2, 3, 4] (.nested [[2, 0]]) = .ok r ∧
      (r.drop 2).take 4 = [1, 2, 3, 4] := by
  rintro ⟨r, hr, -⟩
  rw [show wrap1 [1, 2, 3, 4] (.nested [[2, 0]]) = .error .valueError from rfl] at hr
  exact Except.noConfusion hr

/-- C3 counterexample: `minimum([1, 2], pad_width=(-1,), stat_len=(1, 2, 3))`
has a pad-width specification that normalizes to `((-1, -1),)`, which contains
a negative component, yet the call raises `PadWidthWrongNumberOfValues` (for
the malformed `stat_len`, validated first at lines 112-113) rather than
`NegativePadWidth`. -/
theorem C3_malformed_statlen_masks_negative :
    minimum (ofList1 [1, 2]) (.flat [-1]) (some (.flat [1, 2, 3]))
      = .error (.wrongNumber 1 (.flat [1, 2, 3])) ∧
    (Except.error (.wrongNumber 1 (.flat [1, 2, 3])) : Except PadError NTensor)
      ≠ .error .negative := by
  refine ⟨rfl, ?_⟩
  intro h
  rw [Except.error.injEq] at h
  exact absurd h (by decide)

/-- C4: the module's own doctest
`linear_ramp([1,2,3,4,5], (2,3), (5,-4)) = [5,3,1,2,3,4,5,2,-1,-4]` is
violated by the code: `end_value` is passed through `__validate_tuple` (line
527), whose negativity check rejects the ramp target −4 with
`NegativePadWidth`.  The second conjunct shows the padding engine itself,
with the validation of `end_value` bypassed, produces exactly the documented
array, confirming the doctest describes the intended behavior. -/
theorem C4_linear_ramp_doctest :
    linear_ramp (ofList1 [1, 2, 3, 4, 5]) (.flat [2, 3]) (.flat [5, -4])
      = .error .negative ∧
    (pad_nd (fun _ => linear_rampT [(5, -4)]) none (ofList1 [1, 2, 3, 4, 5])
        (.flat [2, 3])).map NTensor.toList1 = .ok [5, 3, 1, 2, 3, 4, 5, 2, -1, -4] :=
  ⟨rfl, by decide⟩

/-- C5 counterexample: the claim states that for a line with before width 0
(respectively after width 0) the delta computation dividing by that side's
width is skipped.  It is not: the two division expressions of `__linear_ramp`
(lines 219-222) are evaluated unconditionally, so with `pad_tuple = (0, 2)`
the executed denominators include 0. -/
theorem C5_delta_division_unconditional :
    (0 : Int) ∈ linear_ramp_denominators (0, 2) := by decide

/-- C5 (amended): the zero-width side's delta is computed (dividing by zero)
but never used — the ramp vector for that side is empty, so the generator's
result does not depend on that side's delta numerator at all. -/
theorem C5_zero_width_delta_unused (e : Int × Int) (pt : Nat × Nat) (v : List Int)
    (bnum bnum' anum anum' : Int) :
    (pt.1 = 0 → linear_ramp_core e pt bnum anum v = linear_ramp_core e pt bnum' anum v) ∧
    (pt.2 = 0 → linear_ramp_core e pt bnum anum v = linear_ramp_core e pt bnum anum' v) := by
  obtain ⟨p1, p2⟩ := pt
  constructor
  · intro h
    have h' : p1 = 0 := h
    subst h'
    rfl
  · intro h
    have h' : p2 = 0 := h
    subst h'
    rfl

/-- Witness for C5 at concrete inputs, one per side. -/
theorem C5_zero_width_delta_unused_witness :
    linear_ramp_core (5, 3) (0, 1) 7 2 [1, 2] = linear_ramp_core (5, 3) (0, 1) 9 2 [1, 2] ∧
    linear_ramp_core (5, 3) (1, 0) 7 2 [1, 2] = linear_ramp_core (5, 3) (1, 0) 7 4 [1, 2] :=
  ⟨(C5_zero_width_delta_unused (5, 3) (0, 1) [1, 2] 7 9 2 2).1 rfl,
   (C5_zero_width_delta_unused (5, 3) (1, 0) [1, 2] 7 7 2 4).2 rfl⟩

/-- C6: wrap is circular when both widths are positive — the docstring example
`wrap([1,2,3,4,5], (2,3))` gives `[4,5,1,2,3,4,5,1,2,3]` — but with
`pad_width = (2, 0)` the before-slice `vector[-(0+2):-0]` is empty (`-0` is
index 0), and broadcasting it into the 2 before-border slots raises
`ValueError` instead of producing the circular border the claim and the
function's own documentation describe. -/
theorem C6_wrap_zero_after_bug :
    wrap1 [1, 2, 3, 4, 5] (.nested [[2, 3]]) = .ok [4, 5, 1, 2, 3, 4, 5, 1, 2, 3] ∧
    wrap1 [1, 2, 3, 4, 5] (.nested [[2, 0]]) = .error .valueError :=
  ⟨rfl, rfl⟩

/-- C7 counterexample: the empty specification `()` matches none of the three
accepted broadcast forms, yet evaluating `pad_width[0]` at line 85/89 raises
`IndexError`, not `PadWidthWrongNumberOfValues`. -/
theorem C7_empty_spec_raises :
    validate_tuple 1 (.flat []) = .error .indexError ∧
    validate_tuple 1 (.flat []) ≠ .error (.wrongNumber 1 (.flat [])) :=
  ⟨rfl, by decide⟩

end Pad

namespace Pad

/-! ### Validation lemmas -/

theorem checkPairsP_neg : ∀ (l : List (Int × Int)),
    (l.any fun p => decide (p.1 < 0) || decide (p.2 < 0)) = true →
    checkPairsP l = .error .negative := by
  intro l
  induction l with
  | nil => intro h; simp at h
  | cons p rest ih =>
    intro h
    unfold checkPairsP
    by_cases hp : p.1 < 0 ∨ p.2 < 0
    · rw [if_pos hp]
    · rw [if_neg hp]
      simp only [List.any_cons, Bool.or_eq_true, decide_eq_true_eq] at h
      rcases h with h | h
      · exact absurd h hp
      · rw [ih h]
        rfl

theorem checkPairsP_ok : ∀ (l : List (Int × Int)),
    (l.any fun p => decide (p.1 < 0) || decide (p.2 < 0)) = false →
    checkPairsP l = .ok l := by
  intro l
  induction l with
  | nil => intro _; rfl
  | cons p rest ih =>
    intro h
    simp only [List.any_cons, Bool.or_eq_false_iff, decide_eq_false_iff_not] at h
    unfold checkPairsP
    rw [if_neg (not_or.mpr ⟨h.1.1, h.1.2⟩)]
    rw [ih h.2]
    rfl

theorem checkPairs_neg (rk : Nat) (orig : PWSpec) : ∀ (l : List (List Int)),
    (∀ i, i ∈ l → i.length = 2) →
    ((l.map fun i => (i.getD 0 0, i.getD 1 0)).any
      fun p => decide (p.1 < 0) || decide (p.2 < 0)) = true →
    checkPairs rk orig l = .error .negative := by
  intro l
  induction l with
  | nil => intro _ h; simp at h
  | cons i rest ih =>
    intro hlen h
    unfold checkPairs
    rw [if_pos (hlen i (List.mem_cons_self i rest))]
    simp only [List.map_cons, List.any_cons, Bool.or_eq_true, decide_eq_true_eq] at h
    by_cases hp : i.getD 0 0 < 0 ∨ i.getD 1 0 < 0
    · rw [if_pos hp]
    · rw [if_neg hp]
      rcases h with h | h
      · exact absurd h hp
      · rw [ih (fun j hj => hlen j (List.mem_cons_of_mem i hj)) h]
        rfl

theorem checkPairs_ok (rk : Nat) (orig : PWSpec) : ∀ (l : List (List Int)),
    (∀ i, i ∈ l → i.length = 2) →
    ((l.map fun i => (i.getD 0 0, i.getD 1 0)).any
      fun p => decide (p.1 < 0) || decide (p.2 < 0)) = false →
    checkPairs rk orig l = .ok (l.map fun i => (i.getD 0 0, i.getD 1 0)) := by
  intro l
  induction l with
  | nil => intro _ _; rfl
  | cons i rest ih =>
    intro hlen h
    unfold checkPairs
    rw [if_pos (hlen i (List.mem_cons_self i rest))]
    simp only [List.map_cons, List.any_cons, Bool.or_eq_false_iff,
      decide_eq_false_iff_not] at h
    rw [if_neg (not_or.mpr ⟨h.1.1, h.1.2⟩)]
    rw [ih (fun j hj => hlen j (List.mem_cons_of_mem i hj)) h.2]
    rfl

theorem checkPairs_wrongNumber (rk : Nat) (orig : PWSpec) : ∀ (l : List (List Int)),
    cleanUntilMalformed l = true →
    (l.all fun i => i.length == 2) = false →
    checkPairs rk orig l = .error (.wrongNumber rk orig) := by
  intro l
  induction l with
  | nil => intro _ h; simp at h
  | cons i rest ih =>
    intro hclean hall
    unfold checkPairs
    by_cases hl : i.length = 2
    · rw [if_pos hl]
      unfold cleanUntilMalformed at hclean
      rw [if_pos hl] at hclean
      by_cases hp : i.getD 0 0 < 0 ∨ i.getD 1 0 < 0
      · rw [if_pos hp] at hclean
        exact absurd hclean (by decide)
      · rw [if_neg hp] at hclean
        rw [if_neg hp]
        have hall' : (rest.all fun i => i.length == 2) = false := by
          simp only [List.all_cons] at hall
          rw [show (i.length == 2) = true from beq_iff_eq.mpr hl] at hall
          simpa using hall
        rw [ih hclean hall']
        rfl
    · rw [if_neg hl]

theorem validate_neg (rk : Nat) (spec : PWSpec)
    (hacc : acceptedShape rk spec = true) (hneg : hasNegPair rk spec = true) :
    validate_tuple rk spec = .error .negative := by
  cases spec with
  | nested l =>
    simp only [acceptedShape, Bool.and_eq_true, Bool.not_eq_true', beq_iff_eq] at hacc
    obtain ⟨⟨hne, hlenrk⟩, hall⟩ := hacc
    simp only [validate_tuple]
    rw [if_neg (by rw [hne]; exact Bool.false_ne_true)]
    rw [if_pos hlenrk]
    refine checkPairs_neg rk _ l (fun i hi => ?_) ?_
    · exact beq_iff_eq.mp (List.all_eq_true.mp hall i hi)
    · simpa only [hasNegPair, broadcastPairs] using hneg
  | flat l =>
    simp only [acceptedShape, Bool.or_eq_true, beq_iff_eq] at hacc
    simp only [validate_tuple]
    rcases hacc with h1 | h2
    · rw [if_neg (by rw [List.isEmpty_iff]; intro hc; rw [hc] at h1; simp at h1)]
      rw [if_pos h1]
      refine checkPairsP_neg _ ?_
      simpa only [hasNegPair, broadcastPairs, if_pos h1] using hneg
    · rw [if_neg (by rw [List.isEmpty_iff]; intro hc; rw [hc] at h2; simp at h2)]
      rw [if_neg (by omega)]
      rw [if_pos h2]
      refine checkPairsP_neg _ ?_
      simpa only [hasNegPair, broadcastPairs, if_neg (by omega : ¬ l.length = 1)] using hneg

theorem validate_ok (rk : Nat) (spec : PWSpec)
    (hacc : acceptedShape rk spec = true) (hneg : hasNegPair rk spec = false) :
    validate_tuple rk spec = .ok (broadcastPairs rk spec) := by
  cases spec with
  | nested l =>
    simp only [acceptedShape, Bool.and_eq_true, Bool.not_eq_true', beq_iff_eq] at hacc
    obtain ⟨⟨hne, hlenrk⟩, hall⟩ := hacc
    simp only [validate_tuple]
    rw [if_neg (by rw [hne]; exact Bool.false_ne_true)]
    rw [if_pos hlenrk]
    show _ = Except.ok (broadcastPairs rk (.nested l))
    simp only [broadcastPairs]
    refine checkPairs_ok rk _ l (fun i hi => ?_) ?_
    · exact beq_iff_eq.mp (List.all_eq_true.mp hall i hi)
    · simpa only [hasNegPair, broadcastPairs] using hneg
  | flat l =>
    simp only [acceptedShape, Bool.or_eq_true, beq_iff_eq] at hacc
    simp only [validate_tuple]
    rcases hacc with h1 | h2
    · rw [if_neg (by rw [List.isEmpty_iff]; intro hc; rw [hc] at h1; simp at h1)]
      rw [if_pos h1]
      show _ = Except.ok (broadcastPairs rk (.flat l))
      simp only [broadcastPairs, if_pos h1]
      refine checkPairsP_ok _ ?_
      simpa only [hasNegPair, broadcastPairs, if_pos h1] using hneg
    · rw [if_neg (by rw [List.isEmpty_iff]; intro hc; rw [hc] at h2; simp at h2)]
      rw [if_neg (by omega)]
      rw [if_pos h2]
      show _ = Except.ok (broadcastPairs rk (.flat l))
      simp only [broadcastPairs, if_neg (by omega : ¬ l.length = 1)]
      refine checkPairsP_ok _ ?_
      simpa only [hasNegPair, broadcastPairs, if_neg (by omega : ¬ l.length = 1)] using hneg

theorem pad_nd_none_eq (f : Option (List (Nat × Nat)) → LineFun) (t : NTensor) (pws : PWSpec) :
    pad_nd f none t pws = (validate_tuple t.shape.length pws).map
      (fun pw => loop_across t (toNatPairs pw) (f none)) := by
  unfold pad_nd
  cases validate_tuple t.shape.length pws <;> rfl

theorem pad_nd_some_eq (f : Option (List (Nat × Nat)) → LineFun) (t : NTensor)
    (pws sls : PWSpec) :
    pad_nd f (some sls) t pws =
      match validate_tuple t.shape.length sls with
      | .error e => .error e
      | .ok sl => (validate_tuple t.shape.length pws).map
          (fun pw => loop_across t (toNatPairs pw) (f (some (toNatPairs sl)))) := by
  have h1 : pad_nd f (some sls) t pws =
      (Except.map (fun l => some (toNatPairs l)) (validate_tuple t.shape.length sls)).bind
        (fun sl => (validate_tuple t.shape.length pws).bind
          (fun pw => pure (loop_across t (toNatPairs pw) (f sl)))) := rfl
  rw [h1]
  cases validate_tuple t.shape.length sls <;> cases validate_tuple t.shape.length pws <;> rfl

theorem pad_nd_neg_pw (f : Option (List (Nat × Nat)) → LineFun) (t : NTensor) (pws : PWSpec)
    (hacc : acceptedShape t.shape.length pws = true)
    (hneg : hasNegPair t.shape.length pws = true) :
    pad_nd f none t pws = .error .negative := by
  rw [pad_nd_none_eq, validate_neg _ _ hacc hneg]
  rfl

theorem pad_nd_neg_stat (f : Option (List (Nat × Nat)) → LineFun) (t : NTensor)
    (pws sls : PWSpec)
    (haccP : acceptedShape t.shape.length pws = true)
    (haccS : acceptedShape t.shape.length sls = true)
    (hneg : hasNegPair t.shape.length pws = true ∨ hasNegPair t.shape.length sls = true) :
    pad_nd f (some sls) t pws = .error .negative := by
  rw [pad_nd_some_eq]
  by_cases hS : hasNegPair t.shape.length sls = true
  · rw [validate_neg _ _ haccS hS]
  · have hS' : hasNegPair t.shape.length sls = false := by
      cases h' : hasNegPair t.shape.length sls
      · rfl
      · exact absurd h' hS
    rw [validate_ok _ _ haccS hS']
    rw [validate_neg _ _ haccP (hneg.resolve_right hS)]
    rfl

end Pad

namespace Pad

/-- C3 (amended): for every public padding function, whenever every
specification the call validates matches an accepted broadcast shape, a
negative component in the normalized pad-width pairs — or in the normalized
pairs of the auxiliary parameter (stat_len, constant_values, end_value) —
makes the call raise `NegativePadWidth`.  (A malformed specification validated
earlier raises the malformed-spec error instead: stat_len is validated before
pad_width, and constant/end values before pad_width.)  All parameters go
through the one normalizer `validate_tuple` with the same negativity check. -/
theorem C3_negative_raises (t : NTensor) (pws sls cvs evs : PWSpec) :
    (acceptedShape t.shape.length pws = true → acceptedShape t.shape.length sls = true →
      (hasNegPair t.shape.length pws = true ∨ hasNegPair t.shape.length sls = true) →
      maximum t pws (some sls) = .error .negative) ∧
    (acceptedShape t.shape.length pws = true → acceptedShape t.shape.length sls = true →
      (hasNegPair t.shape.length pws = true ∨ hasNegPair t.shape.length sls = true) →
      minimum t pws (some sls) = .error .negative) ∧
    (acceptedShape t.shape.length pws = true → acceptedShape t.shape.length sls = true →
      (hasNegPair t.shape.length pws = true ∨ hasNegPair t.shape.length sls = true) →
      mean t pws (some sls) = .error .negative) ∧
    (acceptedShape t.shape.length pws = true → acceptedShape t.shape.length sls = true →
      (hasNegPair t.shape.length pws = true ∨ hasNegPair t.shape.length sls = true) →
      median t pws (some sls) = .error .negative) ∧
    (acceptedShape t.shape.length pws = true → hasNegPair t.shape.length pws = true →
      maximum t pws none = .error .negative) ∧
    (acceptedShape t.shape.length pws = true → hasNegPair t.shape.length pws = true →
      minimum t pws none = .error .negative) ∧
    (acceptedShape t.shape.length pws = true → hasNegPair t.shape.length pws = true →
      mean t pws none = .error .negative) ∧
    (acceptedShape t.shape.length pws = true → hasNegPair t.shape.length pws = true →
      median t pws none = .error .negative) ∧
    (acceptedShape t.shape.length pws = true → acceptedShape t.shape.length cvs = true →
      (hasNegPair t.shape.length pws = true ∨ hasNegPair t.shape.length cvs = true) →
      constant t pws cvs = .error .negative) ∧
    (acceptedShape t.shape.length pws = true → acceptedShape t.shape.length evs = true →
      (hasNegPair t.shape.length pws = true ∨ hasNegPair t.shape.length evs = true) →
      linear_ramp t pws evs = .error .negative) ∧
    (acceptedShape t.shape.length pws = true → hasNegPair t.shape.length pws = true →
      reflect t pws = .error .negative) ∧
    (acceptedShape t.shape.length pws = true → hasNegPair t.shape.length pws = true →
      wrap t pws = .error .negative) := by
  refine ⟨fun h1 h2 h3 => pad_nd_neg_stat maximumT t pws sls h1 h2 h3,
          fun h1 h2 h3 => pad_nd_neg_stat minimumT t pws sls h1 h2 h3,
          fun h1 h2 h3 => pad_nd_neg_stat meanT t pws sls h1 h2 h3,
          fun h1 h2 h3 => pad_nd_neg_stat medianT t pws sls h1 h2 h3,
          fun h1 h2 => pad_nd_neg_pw maximumT t pws h1 h2,
          fun h1 h2 => pad_nd_neg_pw minimumT t pws h1 h2,
          fun h1 h2 => pad_nd_neg_pw meanT t pws h1 h2,
          fun h1 h2 => pad_nd_neg_pw medianT t pws h1 h2,
          fun h1 h2 h3 => ?_, fun h1 h2 h3 => ?_,
          fun h1 h2 => pad_nd_neg_pw (fun _ => reflectT) t pws h1 h2,
          fun h1 h2 => pad_nd_neg_pw (fun _ => wrapT) t pws h1 h2⟩
  · unfold constant
    by_cases hC : hasNegPair t.shape.length cvs = true
    · rw [validate_neg _ _ h2 hC]
      rfl
    · have hC' : hasNegPair t.shape.length cvs = false := by
        cases h' : hasNegPair t.shape.length cvs
        · rfl
        · exact absurd h' hC
      rw [validate_ok _ _ h2 hC']
      show pad_nd (fun _ => constantT (broadcastPairs t.shape.length cvs)) none t pws
        = .error .negative
      exact pad_nd_neg_pw _ t pws h1 (h3.resolve_right hC)
  · unfold linear_ramp
    by_cases hE : hasNegPair t.shape.length evs = true
    · rw [validate_neg _ _ h2 hE]
      rfl
    · have hE' : hasNegPair t.shape.length evs = false := by
        cases h' : hasNegPair t.shape.length evs
        · rfl
        · exact absurd h' hE
      rw [validate_ok _ _ h2 hE']
      show pad_nd (fun _ => linear_rampT (broadcastPairs t.shape.length evs)) none t pws
        = .error .negative
      exact pad_nd_neg_pw _ t pws h1 (h3.resolve_right hE)

/-- Witness for C3 at a concrete input: a negative pad width with a
well-formed stat_len raises the negative-width error from `minimum`. -/
theorem C3_negative_raises_witness :
    minimum (ofList1 [1, 2]) (.flat [-1]) (some (.flat [1])) = .error .negative :=
  (C3_negative_raises (ofList1 [1, 2]) (.flat [-1]) (.flat [1]) (.flat [])
    (.flat [])).2.1 (by decide) (by decide) (Or.inl (by decide))

/-- C7 (amended): every nonempty specification whose shape matches none of
the three accepted broadcast forms raises `PadWidthWrongNumberOfValues`
carrying the array's rank and the offending specification — provided that, in
the per-axis nested form of correct length, no well-formed pair preceding the
first malformed entry is negative (such a pair raises `NegativePadWidth`
first); an empty specification raises `IndexError` instead. -/
theorem C7_malformed_spec_error (rk : Nat) (spec : PWSpec)
    (h1 : specNonempty spec = true)
    (h2 : acceptedShape rk spec = false)
    (h3 : nestedCleanOK rk spec = true) :
    validate_tuple rk spec = .error (.wrongNumber rk spec) := by
  cases spec with
  | flat l =>
    cases l with
    | nil => exact absurd h1 (by decide)
    | cons x xs =>
      simp only [acceptedShape, Bool.or_eq_false_iff] at h2
      simp only [validate_tuple]
      rw [if_neg (by simp)]
      rw [if_neg (beq_eq_false_iff_ne.mp h2.1), if_neg (beq_eq_false_iff_ne.mp h2.2)]
  | nested l =>
    cases l with
    | nil => exact absurd h1 (by decide)
    | cons i rest =>
      simp only [validate_tuple]
      rw [if_neg (by simp)]
      by_cases hlen : (i :: rest).length = rk
      · rw [if_pos hlen]
        have hall : ((i :: rest).all fun j => j.length == 2) = false := by
          simp only [acceptedShape] at h2
          rw [show ((i :: rest).length == rk) = true from beq_iff_eq.mpr hlen] at h2
          simpa using h2
        have hclean : cleanUntilMalformed (i :: rest) = true := by
          simpa only [nestedCleanOK, if_pos hlen] using h3
        exact checkPairs_wrongNumber rk _ (i :: rest) hclean hall
      · rw [if_neg hlen]

/-- Witness for C7 at a concrete input: a per-axis list of length 3 for a
rank-2 array raises the malformed-spec error carrying rank 2 and the list. -/
theorem C7_malformed_spec_error_witness :
    validate_tuple 2 (.nested [[1, 2], [3, 4], [5, 6]])
      = .error (.wrongNumber 2 (.nested [[1, 2], [3, 4], [5, 6]])) :=
  C7_malformed_spec_error 2 (.nested [[1, 2], [3, 4], [5, 6]])
    (by decide) (by decide) (by decide)

theorem checkPairsP_replicate (n : Nat) (p q : Int) (hp : 0 ≤ p) (hq : 0 ≤ q) :
    checkPairsP (List.replicate n (p, q)) = .ok (List.replicate n (p, q)) := by
  induction n with
  | zero => rfl
  | succ m ih =>
    rw [List.replicate_succ]
    unfold checkPairsP
    rw [if_neg (not_or.mpr ⟨not_lt.mpr hp, not_lt.mpr hq⟩)]
    rw [ih]
    rfl

theorem checkPairs_replicate (rk : Nat) (orig : PWSpec) (n : Nat) (p q : Int)
    (hp : 0 ≤ p) (hq : 0 ≤ q) :
    checkPairs rk orig (List.replicate n [p, q]) = .ok (List.replicate n (p, q)) := by
  induction n with
  | zero => rfl
  | succ m ih =>
    rw [List.replicate_succ, List.replicate_succ]
    unfold checkPairs
    rw [if_pos (show ([p, q] : List Int).length = 2 from rfl)]
    rw [if_neg (show ¬(([p, q] : List Int).getD 0 0 < 0 ∨ ([p, q] : List Int).getD 1 0 < 0)
      from not_or.mpr ⟨not_lt.mpr hp, not_lt.mpr hq⟩)]
    rw [ih]
    rfl

theorem validate_flat_one (rk : Nat) (p : Nat) :
    validate_tuple rk (.flat [(p : Int)])
      = .ok (List.replicate rk ((p : Int), (p : Int))) := by
  simp only [validate_tuple]
  rw [if_neg (by simp)]
  rw [if_pos (show ([(p : Int)] : List Int).length = 1 from rfl)]
  exact checkPairsP_replicate rk (p : Int) (p : Int) (by omega) (by omega)

theorem validate_nested_replicate (rk : Nat) (p : Nat) (h : 0 < rk) :
    validate_tuple rk (.nested (List.replicate rk [(p : Int), (p : Int)]))
      = .ok (List.replicate rk ((p : Int), (p : Int))) := by
  have hne : (List.replicate rk ([(p : Int), (p : Int)] : List Int)).isEmpty = false := by
    cases rk with
    | zero => omega
    | succ m => rfl
  simp only [validate_tuple]
  rw [if_neg (by rw [hne]; exact Bool.false_ne_true)]
  rw [if_pos (List.length_replicate rk _)]
  exact checkPairs_replicate rk _ rk (p : Int) (p : Int) (by omega) (by omega)

/-- C8: for every array of rank at least 1, every non-negative integer p and
every padding pipeline, the scalar pad-width form `(p,)` and the explicit full
per-axis form `((p, p),) * rank` normalize to the same per-axis pair list, so
every public padding function returns the same result on both. -/
theorem C8_broadcast_equivalence (rk p : Nat) (h : 0 < rk) :
    validate_tuple rk (.flat [(p : Int)])
      = validate_tuple rk (.nested (List.replicate rk [(p : Int), (p : Int)])) ∧
    ∀ (f : Option (List (Nat × Nat)) → LineFun) (sl : Option PWSpec) (t : NTensor),
      t.shape.length = rk →
      pad_nd f sl t (.flat [(p : Int)])
        = pad_nd f sl t (.nested (List.replicate rk [(p : Int), (p : Int)])) := by
  constructor
  · rw [validate_flat_one, validate_nested_replicate rk p h]
  · intro f sl t ht
    unfold pad_nd
    rw [ht, validate_flat_one, validate_nested_replicate rk p h]

/-- Witness for C8 at a concrete input: rank 1, scalar width 2. -/
theorem C8_broadcast_equivalence_witness :
    0 < 1 ∧
    validate_tuple 1 (.flat [((2 : Nat) : Int)])
      = validate_tuple 1 (.nested (List.replicate 1 [((2 : Nat) : Int), ((2 : Nat) : Int)])) :=
  ⟨by decide, (C8_broadcast_equivalence 1 2 (by decide)).1⟩

/-- C9: the 2-D doctest of `minimum`: padding `[[1, 2], [3, 4]]` with
`((3, 2), (2, 3))` gives the 7×7 array whose rows 0-3 and 5-6 equal
`[1, 1, 1, 2, 1, 1, 1]` and whose row 4 equals `[3, 3, 3, 4, 3, 3, 3]`; axis 0
is padded first, and the axis-1 generator takes its row minimum over the
interior span only. -/
theorem C9_minimum_2d_doctest :
    (minimum (ofList2 [[1, 2], [3, 4]]) (.nested [[3, 2], [2, 3]]) none).map NTensor.toList2
      = .ok [[1, 1, 1, 2, 1, 1, 1],
             [1, 1, 1, 2, 1, 1, 1],
             [1, 1, 1, 2, 1, 1, 1],
             [1, 1, 1, 2, 1, 1, 1],
             [3, 3, 3, 4, 3, 3, 3],
             [1, 1, 1, 2, 1, 1, 1],
             [1, 1, 1, 2, 1, 1, 1]] := by decide

end Pad

namespace Pad

/-! ### Computation lemmas for the 1-D statistic pipeline -/

theorem getD_replicate_zero (n i : Nat) : (List.replicate n (0 : Int)).getD i 0 = 0 := by
  by_cases h : i < n
  · exact getD_replicate n 0 i 0 h
  · rw [List.getD_eq_getElem?_getD, List.getElem?_eq_none (by simp; omega)]
    rfl

theorem create_vector_exact (v bval aval : List Int) (pt : Nat × Nat)
    (hb : bval.length = pt.1) (ha : aval.length = pt.2) (hlen : pt.1 + pt.2 ≤ v.length) :
    create_vector v pt bval aval = bval ++ (statSlice v pt ++ aval) := by
  unfold create_vector writeSlice statSlice
  simp only [List.take_zero, List.nil_append, Nat.zero_add, hb]
  by_cases hp : 0 < pt.2
  · rw [if_pos hp]
    have hv1len : (bval ++ v.drop pt.1).length = v.length := by
      simp only [List.length_append, List.length_drop, hb]
      omega
    rw [hv1len]
    have hdrop : (bval ++ v.drop pt.1).drop (v.length - pt.2 + aval.length)
        = [] := by
      apply List.drop_eq_nil_of_le
      rw [hv1len]
      omega
    rw [hdrop]
    have htake : (bval ++ v.drop pt.1).take (v.length - pt.2)
        = bval ++ (v.drop pt.1).take (v.length - pt.2 - pt.1) := by
      rw [List.take_append_eq_append_take]
      rw [List.take_of_length_le (by omega)]
      rw [hb]
    rw [htake]
    rw [List.append_assoc, List.append_nil]
  · rw [if_neg hp]
    have hp0 : pt.2 = 0 := by omega
    have ha0 : aval = [] := List.length_eq_zero.mp (by omega)
    have htake : (v.drop pt.1).take (v.length - pt.2 - pt.1) = v.drop pt.1 := by
      apply List.take_of_length_le
      simp only [List.length_drop]
      omega
    rw [ha0, htake, List.append_nil]

theorem statSlice_padded (a : List Int) (b af : Nat) :
    statSlice (List.replicate b 0 ++ (a ++ List.replicate af 0)) (b, af) = a := by
  show ((List.replicate b (0 : Int) ++ (a ++ List.replicate af 0)).drop b).take
      ((List.replicate b (0 : Int) ++ (a ++ List.replicate af 0)).length - af - b) = a
  have h1 : (List.replicate b (0 : Int) ++ (a ++ List.replicate af 0)).drop b
      = a ++ List.replicate af 0 := by
    have h := List.drop_left (List.replicate b (0 : Int)) (a ++ List.replicate af 0)
    rwa [List.length_replicate] at h
  have h2 : (List.replicate b (0 : Int) ++ (a ++ List.replicate af 0)).length - af - b
      = a.length := by
    simp only [List.length_append, List.length_replicate]
    omega
  rw [h1, h2]
  exact List.take_left a _

theorem stat_line_padded (a : List Int) (b af : Nat) (x y : Int) :
    create_vector (List.replicate b 0 ++ (a ++ List.replicate af 0)) (b, af)
        (List.replicate b x) (List.replicate af y)
      = List.replicate b x ++ (a ++ List.replicate af y) := by
  rw [create_vector_exact _ _ _ _ (List.length_replicate _ _) (List.length_replicate _ _)
    (by simp only [List.length_append, List.length_replicate]; omega)]
  rw [statSlice_padded]

theorem meanT_padded (a : List Int) (b af : Nat) :
    meanT none (b, af) 0 (List.replicate b 0 ++ (a ++ List.replicate af 0))
      = List.replicate b (meanInt a) ++ (a ++ List.replicate af (meanInt a)) := by
  show create_vector (List.replicate b 0 ++ (a ++ List.replicate af 0)) (b, af)
      (List.replicate b
        (meanInt (statSlice (List.replicate b 0 ++ (a ++ List.replicate af 0)) (b, af))))
      (List.replicate af
        (meanInt (statSlice (List.replicate b 0 ++ (a ++ List.replicate af 0)) (b, af)))) = _
  rw [statSlice_padded]
  exact stat_line_padded a b af _ _

theorem medianT_padded (a : List Int) (b af : Nat) :
    medianT none (b, af) 0 (List.replicate b 0 ++ (a ++ List.replicate af 0))
      = List.replicate b (medianInt a) ++ (a ++ List.replicate af (medianInt a)) := by
  show create_vector (List.replicate b 0 ++ (a ++ List.replicate af 0)) (b, af)
      (List.replicate b
        (medianInt (statSlice (List.replicate b 0 ++ (a ++ List.replicate af 0)) (b, af))))
      (List.replicate af
        (medianInt (statSlice (List.replicate b 0 ++ (a ++ List.replicate af 0)) (b, af)))) = _
  rw [statSlice_padded]
  exact stat_line_padded a b af _ _

theorem zeroPadded_data1 (a : List Int) (b af : Nat) (j : Nat) :
    (zeroPadded (ofList1 a) [(b, af)]).data [j]
      = (List.replicate b 0 ++ (a ++ List.replicate af 0)).getD j 0 := by
  show (if inInterior [a.length] [(b, af)] [j] then
      (ofList1 a).data (List.zipWith (fun i p => i - p.1) [j] [(b, af)]) else 0) = _
  have hred : inInterior [a.length] [(b, af)] [j] = decide (b ≤ j ∧ j < b + a.length) := by
    show (decide (b ≤ j ∧ j < b + a.length) && true) = _
    rw [Bool.and_true]
  by_cases hj : b ≤ j ∧ j < b + a.length
  · rw [if_pos (by rw [hred]; exact decide_eq_true hj)]
    show a.getD (j - b) 0 = _
    rw [List.getD_append_right _ _ _ _
      (by rw [List.length_replicate]; omega)]
    rw [List.getD_append _ _ _ _ (by rw [List.length_replicate]; omega)]
    rw [List.length_replicate]
  · rw [if_neg (by rw [hred]; exact fun hc => hj (of_decide_eq_true hc))]
    rcases Nat.lt_or_ge j b with hlt | hge
    · rw [List.getD_append _ _ _ _ (by rw [List.length_replicate]; omega)]
      rw [getD_replicate _ _ _ _ hlt]
    · have hge2 : b + a.length ≤ j := by omega
      rw [List.getD_append_right _ _ _ _ (by rw [List.length_replicate]; omega)]
      rw [List.length_replicate]
      rw [List.getD_append_right _ _ _ _ (by omega)]
      rw [getD_replicate_zero]

theorem loop1_toList1 (a : List Int) (b af : Nat) (f : LineFun)
    (h : (f (b, af) 0 (List.replicate b 0 ++ (a ++ List.replicate af 0))).length
        = b + a.length + af) :
    (loop_across (ofList1 a) [(b, af)] f).toList1
      = f (b, af) 0 (List.replicate b 0 ++ (a ++ List.replicate af 0)) := by
  have hP : (List.replicate b (0 : Int) ++ (a ++ List.replicate af 0)).length
      = b + a.length + af := by
    simp only [List.length_append, List.length_replicate]
    omega
  have hlineOf : ∀ i : Nat,
      lineOf (zeroPadded (ofList1 a) [(b, af)]) 0 [i]
        = List.replicate b 0 ++ (a ++ List.replicate af 0) := by
    intro i
    show (List.range ((zeroPadded (ofList1 a) [(b, af)]).shape.getD 0 0)).map
        (fun j => (zeroPadded (ofList1 a) [(b, af)]).data (([i] : List Nat).set 0 j)) = _
    have hsh : (zeroPadded (ofList1 a) [(b, af)]).shape.getD 0 0 = b + a.length + af := rfl
    rw [hsh]
    have hmap : ∀ x ∈ List.range (b + a.length + af),
        (zeroPadded (ofList1 a) [(b, af)]).data (([i] : List Nat).set 0 x)
          = (List.replicate b (0 : Int) ++ (a ++ List.replicate af 0)).getD x 0 := by
      intro x _
      exact zeroPadded_data1 a b af x
    rw [List.map_congr_left hmap]
    exact map_range_getD_len _ _ hP
  show ((List.range ((loop_across (ofList1 a) [(b, af)] f).shape.getD 0 0)).map
      fun i => (loop_across (ofList1 a) [(b, af)] f).data [i]) = _
  have hsh2 : (loop_across (ofList1 a) [(b, af)] f).shape.getD 0 0 = b + a.length + af := rfl
  rw [hsh2]
  have hdata : ∀ i ∈ List.range (b + a.length + af),
      (loop_across (ofList1 a) [(b, af)] f).data [i]
        = (f (b, af) 0 (List.replicate b 0 ++ (a ++ List.replicate af 0))).getD i 0 := by
    intro i _
    show (f ((([(b, af)] : List (Nat × Nat)).getD 0 (0, 0))) 0
        (lineOf (zeroPadded (ofList1 a) [(b, af)]) 0 [i])).getD
        (([i] : List Nat).getD 0 0) 0 = _
    rw [show (([(b, af)] : List (Nat × Nat)).getD 0 (0, 0)) = (b, af) from rfl]
    rw [hlineOf i]
    rfl
  rw [List.map_congr_left hdata]
  exact map_range_getD_len _ _ h

theorem validate_nested_pair (b af : Nat) :
    validate_tuple 1 (.nested [[(b : Int), (af : Int)]]) = .ok [((b : Int), (af : Int))] := by
  simp only [validate_tuple]
  rw [if_neg (by simp)]
  rw [if_pos (show ([[(b : Int), (af : Int)]] : List (List Int)).length = 1 from rfl)]
  unfold checkPairs
  rw [if_pos (show ([(b : Int), (af : Int)] : List Int).length = 2 from rfl)]
  rw [if_neg (show ¬(([(b : Int), (af : Int)] : List Int).getD 0 0 < 0
      ∨ ([(b : Int), (af : Int)] : List Int).getD 1 0 < 0)
    from not_or.mpr ⟨not_lt.mpr (show (0 : Int) ≤ ((b : Nat) : Int) from by omega),
                     not_lt.mpr (show (0 : Int) ≤ ((af : Nat) : Int) from by omega)⟩)]
  rfl

/-- C10: on an integer array, the border values written by `mean` and
`median` are the exact statistic of the interior truncated toward zero
(`meanInt` is `trunc(sum/len)`, `medianInt` truncates the midpoint average):
the padded result is exactly the original flanked by `before`/`after` copies
of the truncated statistic.  In particular `mean([1, 2], (1,)) = [1, 1, 2, 1]`
(border value 1, not 1.5), since the output keeps the integer dtype and the
float statistic is truncated on write. -/
theorem C10_mean_median_truncation (a : List Int) (b af : Nat) (h : a ≠ []) :
    (mean (ofList1 a) (.nested [[(b : Int), (af : Int)]]) none).map NTensor.toList1
      = .ok (List.replicate b (meanInt a) ++ (a ++ List.replicate af (meanInt a))) ∧
    (median (ofList1 a) (.nested [[(b : Int), (af : Int)]]) none).map NTensor.toList1
      = .ok (List.replicate b (medianInt a) ++ (a ++ List.replicate af (medianInt a))) := by
  have hsh : (ofList1 a).shape.length = 1 := rfl
  have hnat : toNatPairs [((b : Int), (af : Int))] = [(b, af)] := by
    simp [toNatPairs]
  constructor
  · show (pad_nd meanT none (ofList1 a) (.nested [[(b : Int), (af : Int)]])).map
        NTensor.toList1 = _
    rw [pad_nd_none_eq, hsh, validate_nested_pair]
    show Except.ok ((loop_across (ofList1 a) (toNatPairs [((b : Int), (af : Int))])
        (meanT none)).toList1) = _
    rw [hnat]
    rw [loop1_toList1 a b af (meanT none) (by
      rw [meanT_padded]
      simp only [List.length_append, List.length_replicate]
      omega)]
    rw [meanT_padded]
  · show (pad_nd medianT none (ofList1 a) (.nested [[(b : Int), (af : Int)]])).map
        NTensor.toList1 = _
    rw [pad_nd_none_eq, hsh, validate_nested_pair]
    show Except.ok ((loop_across (ofList1 a) (toNatPairs [((b : Int), (af : Int))])
        (medianT none)).toList1) = _
    rw [hnat]
    rw [loop1_toList1 a b af (medianT none) (by
      rw [medianT_padded]
      simp only [List.length_append, List.length_replicate]
      omega)]
    rw [medianT_padded]

/-- Witness for C10 at the concrete input of the claim:
`mean([1, 2], pad_width=(1, 1))` is `[1, 1, 2, 1]`. -/
theorem C10_mean_median_truncation_witness :
    ([1, 2] : List Int) ≠ [] ∧
    (mean (ofList1 [1, 2]) (.nested [[((1 : Nat) : Int), ((1 : Nat) : Int)]]) none).map
        NTensor.toList1 = .ok [1, 1, 2, 1] := by
  refine ⟨by decide, ?_⟩
  rw [(C10_mean_median_truncation [1, 2] 1 1 (by decide)).1]
  decide

end Pad
